import Mathlib

/-!
Verification of the image-viewer widget (examples/图片查看器/main.py).

The viewer is a QGraphicsView subclass.  Its zoom logic manipulates the
view transform (a QTransform) through scale and translate calls, keeps a
cumulative zoom factor zoom_total, records a wheel anchor in view and in
scene coordinates, and drives zoom through a QVariantAnimation whose
interpolated values are delivered to the private tick handler.

Shallow embedding conventions:
- Qt floating-point values are modelled as rationals.
- A QTransform is the six affine components m11 m12 m21 m22 dx dy, with
  Qt semantics for scale, translate, map and inverted (inverted falls
  back to the identity when the determinant is zero, as Qt documents).
- mapToScene applies the inverse of the view transform; scroll offsets
  are not modelled (scroll bars are switched off by the widget).
- The animation object is modelled by a running flag plus its start and
  end values; a delivered tick value lies between start and end, which
  is the guarantee of the default linear interpolation.
- Decoding a pixmap is modelled by an Option carrying the image size.
-/

namespace ImageViewer

/-- Affine transform with the six QTransform components used by the view.
Points map as x1 = m11 * x + m21 * y + dx, y1 = m12 * x + m22 * y + dy. -/
structure Transform where
  m11 : ℚ
  m12 : ℚ
  m21 : ℚ
  m22 : ℚ
  dx : ℚ
  dy : ℚ
deriving DecidableEq

/-- The identity transform (resetTransform). -/
def Transform.id : Transform := ⟨1, 0, 0, 1, 0, 0⟩

/-- QTransform.scale: multiplies the linear part on the left by a scaling,
leaving the translation components unchanged. -/
def Transform.scale (t : Transform) (sx sy : ℚ) : Transform :=
  { t with m11 := t.m11 * sx, m12 := t.m12 * sx,
           m21 := t.m21 * sy, m22 := t.m22 * sy }

/-- QTransform.translate: pre-composes with a translation of the source
coordinate system. -/
def Transform.translate (t : Transform) (tx ty : ℚ) : Transform :=
  { t with dx := t.dx + tx * t.m11 + ty * t.m21,
           dy := t.dy + tx * t.m12 + ty * t.m22 }

/-- Determinant of the linear part. -/
def Transform.det (t : Transform) : ℚ := t.m11 * t.m22 - t.m12 * t.m21

/-- Apply the transform to a point. -/
def Transform.map (t : Transform) (p : ℚ × ℚ) : ℚ × ℚ :=
  (t.m11 * p.1 + t.m21 * p.2 + t.dx, t.m12 * p.1 + t.m22 * p.2 + t.dy)

/-- QTransform.inverted: the inverse transform, or the identity when the
transform is singular (Qt documents this fallback). -/
def Transform.inverted (t : Transform) : Transform :=
  if t.det = 0 then Transform.id else
    ⟨t.m22 / t.det, -t.m12 / t.det, -t.m21 / t.det, t.m11 / t.det,
     (t.m21 * t.dy - t.m22 * t.dx) / t.det,
     (t.m12 * t.dx - t.m11 * t.dy) / t.det⟩

/-- A pixmap item: the decoded image size (QGraphicsPixmapItem placed at
the scene origin, so its bounding rectangle is (0, 0, w, h)). -/
structure Item where
  w : ℚ
  h : ℚ
deriving DecidableEq

/-- The viewer state: the fields set up in ImageViewer.__init__ together
with the widget size (minimum size 700 x 420) and the scene content. -/
structure State where
  zoom_total : ℚ
  zoom_origin : ℚ × ℚ
  zoom_scene_origin : ℚ × ℚ
  pixmap : Option Item
  anim_running : Bool
  anim_start : ℚ
  anim_end : ℚ
  transform : Transform
  scene : List Item
  win_w : ℚ
  win_h : ℚ
deriving DecidableEq

/-- The state built by ImageViewer.__init__: zoom 1.0, zero anchors, no
pixmap, idle animation, identity transform, empty scene, minimum size. -/
def initState : State :=
  { zoom_total := 1, zoom_origin := (0, 0), zoom_scene_origin := (0, 0),
    pixmap := none, anim_running := false, anim_start := 0, anim_end := 0,
    transform := Transform.id, scene := [], win_w := 700, win_h := 420 }

/-- Width of the scene rectangle: the bounding box of the items (each at
the origin), as QGraphicsScene computes it when no rect was set. -/
def State.sceneW (st : State) : ℚ :=
  st.scene.foldr (fun it acc => max it.w acc) 0

/-- Height of the scene rectangle. -/
def State.sceneH (st : State) : ℚ :=
  st.scene.foldr (fun it acc => max it.h acc) 0

/-- mapToScene: view point through the inverse of the view transform. -/
def State.mapToScene (st : State) (p : ℚ × ℚ) : ℚ × ℚ :=
  st.transform.inverted.map p

/-- ImageViewer.m11: the horizontal scale coefficient of the transform. -/
def State.m11 (st : State) : ℚ := st.transform.m11

/-- ImageViewer.ratio: min of widget width over scene width and widget
height over scene height. -/
def State.ratio (st : State) : ℚ :=
  min (st.win_w / st.sceneW) (st.win_h / st.sceneH)

/-- Modelled from the spec and Qt: fitInView(item, KeepAspectRatio) right
after resetTransform scales the view uniformly by the smaller of the two
widget-to-item ratios (the scroll-based centering is not modelled, and
the viewport rectangle is taken as the widget rectangle). -/
def fitInView (st : State) (it : Item) : State :=
  let s := min (st.win_w / it.w) (st.win_h / it.h)
  { st with transform := Transform.id.scale s s }

/-- ImageViewer.loadImage: on decode failure return unchanged; otherwise
reset the zoom factor, reset the transform, clear the scene, add the new
pixmap item, and fit it into the view when ratio < 1. -/
def loadImage (st : State) (decoded : Option Item) : State :=
  match decoded with
  | none => st
  | some img =>
    let st1 := { st with zoom_total := 1, transform := Transform.id,
                         scene := [img], pixmap := some img }
    if st1.ratio < 1 then fitInView st1 img else st1

/-- ImageViewer.__on_zoom: the animation tick handler.  factor is the
tick value over the cumulative zoom; when factor equals the cumulative
zoom the handler only logs and returns; otherwise it stores the value as
the new cumulative zoom, scales the transform by factor, and translates
by the difference between the re-mapped view anchor and the stored scene
anchor. -/
def onZoom (st : State) (value : ℚ) : State :=
  let factor := value / st.zoom_total
  if factor = st.zoom_total then st
  else
    let st1 := { st with zoom_total := value,
                         transform := st.transform.scale factor factor }
    let q := st1.mapToScene st.zoom_origin
    let dx := q.1 - st.zoom_scene_origin.1
    let dy := q.2 - st.zoom_scene_origin.2
    { st1 with transform := st1.transform.translate dx dy }

/-- ImageViewer.zoom: stop the animation; if it was running, square the
factor (factor *= factor in the source); then start a new animation from
the cumulative zoom to max 1 (zoom_total * factor). -/
def zoom (st : State) (factor : ℚ) : State :=
  let running := st.anim_running
  let f := if running then factor * factor else factor
  { st with anim_running := true, anim_start := st.zoom_total,
            anim_end := max 1 (st.zoom_total * f) }

/-- ImageViewer.wheelEvent: refuse when scrolling down at the zoom floor;
otherwise record the cursor position as view anchor and its scene image
as scene anchor, then zoom by 1.1 (scroll up) or 0.9 (otherwise). -/
def wheelEvent (st : State) (angle : ℤ) (pos : ℚ × ℚ) : State :=
  if angle < 0 ∧ st.zoom_total = 1 then st
  else
    let st1 := { st with zoom_origin := pos,
                         zoom_scene_origin := st.mapToScene pos }
    zoom st1 (if 0 < angle then 11/10 else 9/10)

/-- ImageViewer.resizeEvent: adopt the new widget size; when a pixmap is
present, rescale the transform by ratio * zoom_total / m11. -/
def resizeEvent (st : State) (newW newH : ℚ) : State :=
  let st1 := { st with win_w := newW, win_h := newH }
  if st1.pixmap = none then st1
  else
    let factor := st1.ratio * st1.zoom_total / st1.m11
    { st1 with transform := st1.transform.scale factor factor }

/-- The externally triggered operations the claims quantify over. -/
inductive Op where
  | load (decoded : Option Item)
  | wheel (angle : ℤ) (pos : ℚ × ℚ)
  | zoomCall (factor : ℚ)
  | tick (value : ℚ)

/-- One operation applied to the state. -/
def step (st : State) : Op → State
  | .load d => loadImage st d
  | .wheel a p => wheelEvent st a p
  | .zoomCall f => zoom st f
  | .tick v => onZoom st v

/-- An operation is deliverable in a state: a tick only arrives from a
running animation and its interpolated value lies between the start and
the end value (linear interpolation of QVariantAnimation). -/
def validOp (st : State) : Op → Bool
  | .tick v => st.anim_running &&
      decide (min st.anim_start st.anim_end ≤ v ∧
              v ≤ max st.anim_start st.anim_end)
  | _ => true

/-- Run a list of operations. -/
def run (st : State) : List Op → State
  | [] => st
  | op :: ops => run (step st op) ops

/-- Every operation of the list is deliverable where it happens. -/
def validSeq (st : State) : List Op → Bool
  | [] => true
  | op :: ops => validOp st op && validSeq (step st op) ops

/-- The inductive invariant behind the zoom floor: the cumulative zoom is
at least 1 and, while the animation runs, so are its start and end
values. -/
def Inv (st : State) : Prop :=
  1 ≤ st.zoom_total ∧
    (st.anim_running = true → 1 ≤ st.anim_start ∧ 1 ≤ st.anim_end)

/-! Basic transform lemmas. -/

theorem Transform.det_translate (t : Transform) (a b : ℚ) :
    (t.translate a b).det = t.det := rfl

theorem Transform.map_translate (t : Transform) (a b : ℚ) (p : ℚ × ℚ) :
    (t.translate a b).map p = t.map (p.1 + a, p.2 + b) := by
  simp only [Transform.translate, Transform.map, Prod.mk.injEq]
  constructor <;> ring

theorem Transform.inverted_map_map (t : Transform) (p : ℚ × ℚ)
    (h : t.det ≠ 0) : t.inverted.map (t.map p) = p := by
  obtain ⟨x, y⟩ := p
  have hd : t.m11 * t.m22 - t.m12 * t.m21 ≠ 0 := h
  simp only [Transform.inverted]
  rw [if_neg h]
  simp only [Transform.map, Transform.det, Prod.mk.injEq]
  constructor <;> (field_simp; ring)

theorem Transform.map_inverted_map (t : Transform) (p : ℚ × ℚ)
    (h : t.det ≠ 0) : t.map (t.inverted.map p) = p := by
  obtain ⟨x, y⟩ := p
  have hd : t.m11 * t.m22 - t.m12 * t.m21 ≠ 0 := h
  simp only [Transform.inverted]
  rw [if_neg h]
  simp only [Transform.map, Transform.det, Prod.mk.injEq]
  constructor <;> (field_simp; ring)

/-! Claims. -/

/-- Claim C6: loadImage on a decode failure returns without changing any
viewer state: zoom factor, transform, scene content and pixmap reference
are exactly as before. -/
theorem C6_load_failure_noop (st : State) : loadImage st none = st := rfl

/-- Claim C3 counterexample: with an animation already running and
cumulative zoom 1, a zoom call with factor 1.1 produces the end value
max 1 (1 * 1.21) = 1.21, not the max 1 (1 * 2.2) = 2.2 that a doubled
factor would give. -/
theorem C3_doubling_counterexample :
    (zoom { initState with anim_running := true } (11/10)).anim_end ≠
      max 1 (({ initState with anim_running := true } : State).zoom_total *
        (2 * (11/10))) := by
  norm_num [zoom, initState]

/-- Claim C3 (amended): a zoom call made while the animation is running
stops it and restarts it with the requested factor squared, so the new
animation runs from the cumulative zoom towards
max 1 (zoom_total * factor * factor). -/
theorem C3_running_squares_factor (st : State) (f : ℚ)
    (h : st.anim_running = true) :
    (zoom st f).anim_start = st.zoom_total ∧
    (zoom st f).anim_end = max 1 (st.zoom_total * (f * f)) ∧
    (zoom st f).anim_running = true := by
  simp [zoom, h]

theorem C3_running_squares_factor_witness :
    ({ initState with anim_running := true } : State).anim_running = true ∧
    (zoom { initState with anim_running := true } (11/10)).anim_end =
      max 1 (({ initState with anim_running := true } : State).zoom_total *
        (11/10 * (11/10))) :=
  ⟨by decide,
    (C3_running_squares_factor { initState with anim_running := true }
      (11/10) (by decide)).2.1⟩

/-- Claim C4 (code bug): the no-change guard of the tick handler compares
value / zoom_total with zoom_total instead of with 1.  At cumulative zoom
2 a tick with value 4, which requires a real scaling, is dropped with the
state unchanged, while a tick with value 2, the genuinely unchanged step,
is not dropped and still mutates the transform. -/
theorem C4_guard_compares_factor_to_total :
    onZoom { initState with zoom_total := 2 } 4 =
      { initState with zoom_total := 2 } ∧
    (4 : ℚ) ≠ ({ initState with zoom_total := 2 } : State).zoom_total ∧
    onZoom { initState with zoom_total := 2, zoom_scene_origin := (5, 5) } 2 ≠
      { initState with zoom_total := 2, zoom_scene_origin := (5, 5) } := by
  refine ⟨?_, by norm_num [initState], ?_⟩
  · norm_num [onZoom, initState]
  · norm_num [onZoom, initState, State.mapToScene, State.mk.injEq,
      Transform.id, Transform.scale, Transform.translate, Transform.inverted,
      Transform.det, Transform.map, Transform.mk.injEq]

/-- Claim C8: a zoom call made while no animation is running starts an
animation from the current cumulative zoom to
max 1 (zoom_total * factor). -/
theorem C8_zoom_idle_start_end (st : State) (f : ℚ)
    (h : st.anim_running = false) :
    (zoom st f).anim_running = true ∧
    (zoom st f).anim_start = st.zoom_total ∧
    (zoom st f).anim_end = max 1 (st.zoom_total * f) := by
  simp [zoom, h]

theorem C8_zoom_idle_start_end_witness :
    initState.anim_running = false ∧
    (zoom initState (3/2)).anim_end = max 1 (initState.zoom_total * (3/2)) :=
  ⟨by decide, (C8_zoom_idle_start_end initState (3/2) (by decide)).2.2⟩

/-! Preservation of the invariant by each operation. -/

theorem inv_zoom (st : State) (f : ℚ) (h : Inv st) : Inv (zoom st f) := by
  simp only [Inv, zoom]
  exact ⟨h.1, fun _ => ⟨h.1, le_max_left _ _⟩⟩

theorem inv_loadImage (st : State) (d : Option Item) (h : Inv st) :
    Inv (loadImage st d) := by
  cases d with
  | none => exact h
  | some img =>
    simp only [Inv, loadImage, fitInView]
    split <;> exact ⟨le_refl 1, fun hr => h.2 hr⟩

theorem inv_wheel (st : State) (a : ℤ) (p : ℚ × ℚ) (h : Inv st) :
    Inv (wheelEvent st a p) := by
  simp only [wheelEvent]
  split
  · exact h
  · exact inv_zoom _ _ ⟨h.1, h.2⟩

theorem inv_onZoom (st : State) (v : ℚ) (h : Inv st)
    (hr : st.anim_running = true)
    (hlo : min st.anim_start st.anim_end ≤ v)
    (hhi : v ≤ max st.anim_start st.anim_end) :
    Inv (onZoom st v) := by
  have hv : 1 ≤ v := le_trans (le_min (h.2 hr).1 (h.2 hr).2) hlo
  simp only [Inv, onZoom]
  split
  · exact h
  · exact ⟨hv, fun hr2 => h.2 hr2⟩

theorem inv_step (st : State) (op : Op) (h : Inv st)
    (hv : validOp st op = true) : Inv (step st op) := by
  cases op with
  | load d => exact inv_loadImage st d h
  | wheel a p => exact inv_wheel st a p h
  | zoomCall f => exact inv_zoom st f h
  | tick v =>
    simp only [validOp, Bool.and_eq_true, decide_eq_true_eq] at hv
    exact inv_onZoom st v h hv.1 hv.2.1 hv.2.2

theorem inv_run (ops : List Op) (st : State) (h : Inv st)
    (hv : validSeq st ops = true) : Inv (run st ops) := by
  induction ops generalizing st with
  | nil => exact h
  | cons op rest ih =>
    simp only [validSeq, Bool.and_eq_true] at hv
    exact ih (step st op) (inv_step st op h hv.1) hv.2

/-- Claim C1: along every deliverable sequence of loadImage, wheelEvent,
zoom and animation-tick operations from the initial state, the cumulative
zoom never drops below 1: loadImage resets it to 1, wheelEvent refuses a
zoom-out at the floor, and zoom clamps the animation end value with
max 1 (zoom_total * factor), so a tick value between start and end stays
at least 1. -/
theorem C1_zoom_total_never_below_one (ops : List Op)
    (h : validSeq initState ops = true) :
    1 ≤ (run initState ops).zoom_total :=
  (inv_run ops initState ⟨le_refl 1, by simp [initState]⟩ h).1

theorem C1_zoom_total_never_below_one_witness :
    validSeq initState
      [Op.load (some ⟨1000, 800⟩), Op.zoomCall 3, Op.tick 2,
       Op.wheel (-120) (0, 0), Op.tick (17/10)] = true ∧
    1 ≤ (run initState
      [Op.load (some ⟨1000, 800⟩), Op.zoomCall 3, Op.tick 2,
       Op.wheel (-120) (0, 0), Op.tick (17/10)]).zoom_total := by
  have hv : validSeq initState
      [Op.load (some ⟨1000, 800⟩), Op.zoomCall 3, Op.tick 2,
       Op.wheel (-120) (0, 0), Op.tick (17/10)] = true := by
    norm_num [validSeq, validOp, step, initState, loadImage, fitInView,
      onZoom, zoom, wheelEvent, State.ratio, State.sceneW, State.sceneH,
      State.mapToScene, Transform.id, Transform.scale, Transform.translate,
      Transform.inverted, Transform.det, Transform.map, min_def, max_def]
  exact ⟨hv, C1_zoom_total_never_below_one _ hv⟩

/-- Claim C2: when the tick handler takes its scale-and-translate path
(the incremental factor value / zoom_total differs from the guard value
zoom_total) on an invertible scaled transform, the view point recorded
as the zoom anchor maps back to the stored anchor scene point: the scene
point under the cursor at zoom start stays under the cursor. -/
theorem C2_anchor_maps_back (st : State) (v : ℚ)
    (hv : v ≠ st.zoom_total)
    (hg : v / st.zoom_total ≠ st.zoom_total)
    (hd : (st.transform.scale (v / st.zoom_total)
      (v / st.zoom_total)).det ≠ 0) :
    (onZoom st v).mapToScene st.zoom_origin = st.zoom_scene_origin := by
  have key : ∀ (t : Transform) (o s q : ℚ × ℚ), t.det ≠ 0 → t.map q = o →
      (t.translate (q.1 - s.1) (q.2 - s.2)).inverted.map o = s := by
    intro t o s q ht hmo
    have h2 : (t.translate (q.1 - s.1) (q.2 - s.2)).map s = o := by
      rw [Transform.map_translate]
      have hq : (s.1 + (q.1 - s.1), s.2 + (q.2 - s.2)) = q := by
        obtain ⟨q1, q2⟩ := q
        simp only [Prod.mk.injEq]
        constructor <;> ring
      rw [hq, hmo]
    have hdet : (t.translate (q.1 - s.1) (q.2 - s.2)).det ≠ 0 := by
      rw [Transform.det_translate]; exact ht
    have h3 := Transform.inverted_map_map
      (t.translate (q.1 - s.1) (q.2 - s.2)) s hdet
    rw [h2] at h3
    exact h3
  simp only [onZoom, State.mapToScene]
  rw [if_neg hg]
  exact key (st.transform.scale (v / st.zoom_total) (v / st.zoom_total))
    st.zoom_origin st.zoom_scene_origin _ hd
    (Transform.map_inverted_map _ _ hd)

theorem C2_anchor_maps_back_witness :
    (2 : ℚ) ≠ initState.zoom_total ∧
    (onZoom initState 2).mapToScene initState.zoom_origin =
      initState.zoom_scene_origin :=
  ⟨by norm_num [initState],
   C2_anchor_maps_back initState 2 (by norm_num [initState])
     (by norm_num [initState])
     (by norm_num [initState, Transform.id, Transform.scale, Transform.det])⟩

/-- Claim C5: loadImage on a successful decode resets the cumulative zoom
to 1, replaces the scene content with the newly created item and stores
it as the pixmap, and sets the transform to the identity, uniformly
scaled down by the fit ratio when the image exceeds the window
(ratio below 1), preserving the aspect ratio. -/
theorem C5_load_success (st : State) (img : Item)
    (hw : 0 < img.w) (hh : 0 < img.h) :
    (loadImage st (some img)).zoom_total = 1 ∧
    (loadImage st (some img)).scene = [img] ∧
    (loadImage st (some img)).pixmap = some img ∧
    (loadImage st (some img)).transform =
      (if (loadImage st (some img)).ratio < 1 then
        Transform.id.scale (loadImage st (some img)).ratio
          (loadImage st (some img)).ratio
      else Transform.id) := by
  have hsW : max img.w 0 = img.w := max_eq_left hw.le
  have hsH : max img.h 0 = img.h := max_eq_left hh.le
  by_cases hc : min (st.win_w / img.w) (st.win_h / img.h) < 1
  · simp [loadImage, fitInView, State.ratio, State.sceneW, State.sceneH,
      hsW, hsH, hc]
  · simp [loadImage, fitInView, State.ratio, State.sceneW, State.sceneH,
      hsW, hsH, hc]

theorem C5_load_success_witness :
    (0 : ℚ) < (1000 : ℚ) ∧
    (loadImage initState (some ⟨1000, 800⟩)).zoom_total = 1 :=
  ⟨by norm_num,
   (C5_load_success initState ⟨1000, 800⟩ (by norm_num) (by norm_num)).1⟩

/-- Claim C7: a wheel event with a negative vertical delta at cumulative
zoom 1 is refused with the state unchanged; any other wheel event stores
the cursor position and its scene image as the two anchors and invokes
zoom with factor 1.1 on a positive delta and 0.9 otherwise. -/
theorem C7_wheel_dispatch (st : State) (angle : ℤ) (pos : ℚ × ℚ) :
    (angle < 0 ∧ st.zoom_total = 1 → wheelEvent st angle pos = st) ∧
    (¬ (angle < 0 ∧ st.zoom_total = 1) →
      wheelEvent st angle pos =
        zoom { st with zoom_origin := pos,
                       zoom_scene_origin := st.mapToScene pos }
          (if 0 < angle then 11/10 else 9/10)) := by
  constructor
  · intro h
    simp [wheelEvent, h]
  · intro h
    simp [wheelEvent, h]

theorem C7_wheel_dispatch_witness :
    (wheelEvent initState (-120) (3, 4) = initState) ∧
    (wheelEvent { initState with zoom_total := 2 } (-120) (3, 4) =
      zoom { { initState with zoom_total := 2 } with
             zoom_origin := (3, 4),
             zoom_scene_origin :=
               ({ initState with zoom_total := 2 } : State).mapToScene
                 (3, 4) }
        (if (0 : ℤ) < -120 then 11/10 else 9/10)) :=
  ⟨(C7_wheel_dispatch initState (-120) (3, 4)).1
     ⟨by norm_num, by norm_num [initState]⟩,
   (C7_wheel_dispatch { initState with zoom_total := 2 } (-120) (3, 4)).2
     (by norm_num [initState])⟩

/-- Claim C9: after a resize delivered while a pixmap is loaded and the
transform is non-degenerate, the horizontal scale coefficient m11 equals
the fit ratio for the new window size times the cumulative zoom; with
cumulative zoom 1 this is exactly the fit-to-window ratio. -/
theorem C9_resize_restores_fit (st : State) (newW newH : ℚ)
    (hp : ¬ st.pixmap = none) (hm : st.m11 ≠ 0) :
    (resizeEvent st newW newH).m11 =
      min (newW / st.sceneW) (newH / st.sceneH) * st.zoom_total := by
  have hm2 : st.transform.m11 ≠ 0 := hm
  simp only [resizeEvent, State.m11, State.ratio, State.sceneW, State.sceneH,
    Transform.scale]
  rw [if_neg hp]
  rw [mul_comm]
  exact div_mul_cancel₀ _ hm2

theorem C9_resize_restores_fit_witness :
    (resizeEvent
      { initState with
        pixmap := some ⟨1000, 800⟩, scene := [⟨1000, 800⟩] } 500 400).m11 =
      min ((500 : ℚ) /
          ({ initState with
             pixmap := some ⟨1000, 800⟩,
             scene := [⟨1000, 800⟩] } : State).sceneW)
        ((400 : ℚ) /
          ({ initState with
             pixmap := some ⟨1000, 800⟩,
             scene := [⟨1000, 800⟩] } : State).sceneH) *
      ({ initState with
         pixmap := some ⟨1000, 800⟩,
         scene := [⟨1000, 800⟩] } : State).zoom_total :=
  C9_resize_restores_fit _ 500 400 (by simp)
    (by norm_num [initState, State.m11, Transform.id])

/-- Claim C10: a wheel event with vertical delta exactly 0 is not refused
even at cumulative zoom 1: the anchors are recorded and a zoom animation
is started (factor 0.9 when none was running) whose end value is clamped
to 1 by the max inside zoom. -/
theorem C10_wheel_zero_delta (st : State) (pos : ℚ × ℚ)
    (h : st.zoom_total = 1) :
    (wheelEvent st 0 pos).zoom_origin = pos ∧
    (wheelEvent st 0 pos).zoom_scene_origin = st.mapToScene pos ∧
    (wheelEvent st 0 pos).anim_running = true ∧
    (wheelEvent st 0 pos).anim_end = 1 ∧
    (st.anim_running = false →
      (wheelEvent st 0 pos).anim_end = max 1 (st.zoom_total * (9/10))) := by
  cases hr : st.anim_running <;>
    simp [wheelEvent, zoom, h, hr] <;> norm_num [max_def]

theorem C10_wheel_zero_delta_witness :
    initState.zoom_total = 1 ∧
    (wheelEvent initState 0 (6, 7)).anim_end = 1 :=
  ⟨by norm_num [initState],
   (C10_wheel_zero_delta initState (6, 7)
     (by norm_num [initState])).2.2.2.1⟩

end ImageViewer
